import Mathlib

/-!
Shallow embedding of the trade lifecycle simulator from
`option_tools/option_trade_executor.py`: the enhanced-hybrid-premium
per-trade state machine (`execute_advanced_hybrid_premium_trade`), its
classification helpers (risk level, premium tier, BigMove detection,
yellow-flag and technical-exit detectors, multi-stage trailing), and the
signal-stream orchestrator (`execute_option_trades`).

Modelling conventions:
- Python floats are modelled as `ℚ`; timestamps as minutes (`ℕ`), so that a
  bar's wall-clock hour is `time / 60` and `minutes_elapsed` between two bars
  is their difference.
- A pandas `row.get(key, default)` on a possibly-absent indicator column is
  modelled by an `Option ℚ` field read with `Option.getD default`; a config
  `dict.get(key, default)` likewise.  A nested config dict that is read with
  `.get(key, {})` is modelled as a plain record whose leaves are `Option`s
  (an absent dict behaves identically to a dict with every key absent).
- Exit reasons are an inductive type; `ExitReason.label` gives the strings
  the source stores in the result row (the source appends runtime numbers to
  some technical-exit reasons, which we omit).
- The source's dead first definitions of `check_yellow_flag_conditions` and
  `check_technical_exit_conditions` (shadowed by later ones) are not
  modelled; the live ones are.
-/

inductive TradeType
  | call
  | put
  deriving DecidableEq

/-- The `Big Move` column of a signal row may hold a boolean or a string
(CSV round-trip); `detect_big_move` accepts both. -/
inductive OverrideVal
  | ofBool : Bool → OverrideVal
  | ofString : String → OverrideVal
  deriving DecidableEq

inductive RiskLevel
  | high
  | moderate
  | low
  deriving DecidableEq

/-- Which condition of `check_technical_exit_conditions` fired (in source
order). -/
inductive TechReason
  | williamsReversal
  | stochExhaustion
  | doubleReversal
  | extremeMomentumReversal
  | stochBearishCross
  deriving DecidableEq

inductive ExitReason
  | slHit
  | trailingSl
  | endOfData
  | fixedTpAvg
  | williamsAvg
  | quickTp
  | emaBigMove
  | techExit : TechReason → ExitReason
  deriving DecidableEq

def ExitReason.label : ExitReason → String
  | .slHit => "SL Hit"
  | .trailingSl => "Trailing SL"
  | .endOfData => "End of Data"
  | .fixedTpAvg => "Fixed TP (Average Signal)"
  | .williamsAvg => "Williams Exit (Average Signal)"
  | .quickTp => "Quick TP"
  | .emaBigMove => "Enhanced EMA Exit (BigMove)"
  | .techExit _ => "Enhanced Technical Exit"

/-- One price bar: OHLC plus the indicator columns the executor reads
(`K`, `D`, `%R`, `%R.1`, `ATR_n`), each `Option` because a column can be
absent.  `time` is in minutes. -/
structure Bar where
  time : ℕ
  open_ : ℚ
  high : ℚ
  low : ℚ
  close : ℚ
  k : Option ℚ
  d : Option ℚ
  r : Option ℚ
  r1 : Option ℚ
  atr : Option ℚ
  deriving DecidableEq

instance : Inhabited Bar := ⟨⟨0, 0, 0, 0, 0, none, none, none, none, none⟩⟩

def Bar.hour (b : Bar) : ℕ := b.time / 60

def Bar.minute (b : Bar) : ℕ := b.time % 60

/-- Indicator values of one candle after the main loop's defaulting
(`K`/`D` default 50, `%R`/`%R.1` default 0), as handed to the yellow-flag
and technical-exit detectors. -/
structure IndVals where
  k : ℚ
  d : ℚ
  w9 : ℚ
  w28 : ℚ
  deriving DecidableEq

structure RiskThresholds where
  stochKThreshold : Option ℚ
  williamsRThreshold : Option ℚ
  slPercent : Option ℚ
  deriving DecidableEq

structure DynamicSlCfg where
  highRisk : RiskThresholds
  moderateRisk : RiskThresholds
  lowRisk : RiskThresholds
  deriving DecidableEq

structure TimeBasedSlCfg where
  enabled : Bool
  openingHourReduction : Option ℚ
  closingHourIncrease : Option ℚ
  deriving DecidableEq

structure YellowFlagCfg where
  enabled : Bool
  williamsRCross : Option ℚ
  stochMomentumDrop : Option ℚ
  doubleReversal : Option ℚ
  tightenSlPct : Option ℚ
  deriving DecidableEq

structure TechExitCfg where
  enabled : Bool
  williamsRReversal : Option ℚ
  stochExhaustion : Option ℚ
  doubleReversal : Option ℚ
  stochBearishCross : Bool
  deriving DecidableEq

structure EnhancedSlCfg where
  enabled : Bool
  dynamicSl : DynamicSlCfg
  timeBasedSl : TimeBasedSlCfg
  yellowFlag : YellowFlagCfg
  technicalExits : TechExitCfg
  deriving DecidableEq

structure BigMoveThresholds where
  stochKThreshold : Option ℚ
  williamsR1Threshold : Option ℚ
  deriving DecidableEq

structure MomentumConfirmCfg where
  enabled : Bool
  minCandleRangePct : Option ℚ
  consecutiveMoves : Option ℕ
  deriving DecidableEq

structure BigMoveDetectionCfg where
  callThresholds : Option BigMoveThresholds
  putThresholds : Option BigMoveThresholds
  momentumConfirmation : MomentumConfirmCfg
  deriving DecidableEq

structure TrailingStage where
  profitThreshold : Option ℚ
  atrMultiplier : ℚ
  minSlPct : ℚ
  deriving DecidableEq

structure BigMoveTrailingCfg where
  stage1 : Option TrailingStage
  stage2 : Option TrailingStage
  stage3 : Option TrailingStage
  deriving DecidableEq

structure EmaConfirmFilters where
  momentumWeakening : Bool
  deriving DecidableEq

structure EmaCrossExitCfg where
  enabled : Bool
  minProfitPct : Option ℚ
  minCandlesBeforeExit : Option ℕ
  emaPeriods : Option (ℕ × ℕ)
  confirmationFilters : EmaConfirmFilters
  deriving DecidableEq

structure SignalDiffCfg where
  enabled : Bool
  avgWindowCandles : ℕ
  bigmoveDetection : BigMoveDetectionCfg
  bigmoveTrailing : BigMoveTrailingCfg
  emaCrossExit : EmaCrossExitCfg
  deriving DecidableEq

structure QuickExitCfg where
  breakevenAfterPct : Option ℚ
  stallCandles : Option ℕ
  williamsExitEnabled : Bool
  deriving DecidableEq

structure AvgSignalCfg where
  enabled : Bool
  fixedTpPoints : Option ℚ
  quickExit : QuickExitCfg
  deriving DecidableEq

structure TimeBasedTrailingCfg where
  enabled : Bool
  tightenAfterMinutes : Option ℚ
  tightenMultiplier : Option ℚ
  deriving DecidableEq

structure ProfitProtectionCfg where
  enabled : Bool
  protectAfterPct : Option ℚ
  protectionLevelPct : Option ℚ
  deriving DecidableEq

structure RiskMgmtCfg where
  timeBasedTrailing : TimeBasedTrailingCfg
  profitProtection : ProfitProtectionCfg
  deriving DecidableEq

/-- One entry of `PREMIUM_TIERS`.  `threshold = none` models `inf`. -/
structure PremiumTier where
  threshold : Option ℚ
  slPercent : Option ℚ
  atrMult : ℚ
  breakevenDelay : ℕ
  trailStartPct : ℚ
  deriving DecidableEq

structure TradeConfig where
  premiumTiers : List PremiumTier
  premiumTierHigh : PremiumTier
  slPercent : Option ℚ
  breakevenMovePct : Option ℚ
  stallThresholdPct : Option ℚ
  quickTpPoints : Option ℚ
  williams28CrossUnder : Option ℚ
  williams9CrossUnder : Option ℚ
  useStochFadeForTp : Bool
  enhancedSl : EnhancedSlCfg
  signalDiff : SignalDiffCfg
  avgSignal : AvgSignalCfg
  riskMgmt : RiskMgmtCfg
  deriving DecidableEq

def price_below_threshold (p : ℚ) : Option ℚ → Bool
  | none => true
  | some v => decide (p < v)

/-- Source `get_premium_tier`: first tier (in dict order) whose threshold
exceeds the entry price, else the `HIGH` tier. -/
def get_premium_tier (entry_price : ℚ) (tiers : List PremiumTier) (hi : PremiumTier) : PremiumTier :=
  (tiers.find? (fun t => price_below_threshold entry_price t.threshold)).getD hi

/-- Source `assess_entry_risk_level` with its hard-coded thresholds.
Missing indicators default to K=50, %R=-50. -/
def assess_entry_risk_level (entry_candle : Bar) : RiskLevel :=
  let k := entry_candle.k.getD 50
  let williams_9 := entry_candle.r.getD (-50)
  if 85 < k ∧ -20 < williams_9 then RiskLevel.high
  else if 70 < k ∧ -50 < williams_9 then RiskLevel.moderate
  else RiskLevel.low

/-- Source `apply_time_based_sl_adjustment`: opening-window (9:15-10:15)
reduction floored at 2%, closing-hour (15:xx) increase capped at 10%. -/
def apply_time_based_sl_adjustment (sl_percent : ℚ) (entry_time : Bar) (enhanced_sl_config : EnhancedSlCfg) : ℚ :=
  let time_config := enhanced_sl_config.timeBasedSl
  if time_config.enabled = false then sl_percent
  else if entry_time.hour = 9 ∨ (entry_time.hour = 10 ∧ entry_time.minute ≤ 15) then
    max (sl_percent - time_config.openingHourReduction.getD 1) 2
  else if entry_time.hour = 15 then
    min (sl_percent + time_config.closingHourIncrease.getD 1) 10
  else sl_percent

/-- Source `get_dynamic_sl_percent`: risk-tiered SL percent from the entry
candle's `K` and `%R` (first match wins), then the time-of-day adjustment.
With enhanced SL management disabled, falls back to the tier's
`sl_percent` or the global `SL_PERCENT` (default 6). -/
def get_dynamic_sl_percent (entry_candle : Bar) (entry_price : ℚ) (cfg : TradeConfig) (tier : PremiumTier) : ℚ :=
  let enhanced := cfg.enhancedSl
  if enhanced.enabled = false then tier.slPercent.getD (cfg.slPercent.getD 6)
  else
    let stoch_k := entry_candle.k.getD 50
    let williams_r := entry_candle.r.getD (-50)
    let hr := enhanced.dynamicSl.highRisk
    let mr := enhanced.dynamicSl.moderateRisk
    let lr := enhanced.dynamicSl.lowRisk
    let sl_percent :=
      if hr.stochKThreshold.getD 85 < stoch_k ∧ hr.williamsRThreshold.getD (-20) < williams_r then
        hr.slPercent.getD 3.5
      else if mr.stochKThreshold.getD 70 < stoch_k ∧ mr.williamsRThreshold.getD (-50) < williams_r then
        mr.slPercent.getD 5
      else lr.slPercent.getD 7
    apply_time_based_sl_adjustment sl_percent entry_candle enhanced

/-- Source `detect_yellow_flag_conditions` (the live definition), reduced to
the truthiness of the returned flag list: any of the five early-warning
conditions, gated on both `ENHANCED_SL_MANAGEMENT.ENABLED` and
`YELLOW_FLAG_SYSTEM.ENABLED`.  The candle dicts built at the call site
always carry the four keys, so the internal `safe_get` defaults never
apply to the values we pass. -/
def detect_yellow_flag_conditions (cur prev : IndVals) (cfg : TradeConfig) : Bool :=
  if cfg.enhancedSl.enabled = false then false
  else if cfg.enhancedSl.yellowFlag.enabled = false then false
  else
    let yf := cfg.enhancedSl.yellowFlag
    let wt := yf.williamsRCross.getD (-80)
    let dropT := yf.stochMomentumDrop.getD 20
    let dbl := yf.doubleReversal.getD (-50)
    decide ((prev.w9 ≤ wt ∧ wt < cur.w9) ∨
            (prev.w28 ≤ wt ∧ wt < cur.w28) ∨
            dropT ≤ prev.k - cur.k ∨
            (prev.d ≤ prev.k ∧ cur.k < cur.d) ∨
            (dbl < cur.w9 ∧ dbl < cur.w28))

/-- Source `check_technical_exit_conditions` (the live, second definition):
returns the first firing condition in source order, gated on
`ENHANCED_SL_MANAGEMENT.ENABLED` and `TECHNICAL_EXITS.ENABLED`. -/
def check_technical_exit_conditions (cur prev : IndVals) (cfg : TradeConfig) : Option TechReason :=
  if cfg.enhancedSl.enabled = false then none
  else if cfg.enhancedSl.technicalExits.enabled = false then none
  else
    let te := cfg.enhancedSl.technicalExits
    if te.williamsRReversal.getD (-20) < cur.w9 then some TechReason.williamsReversal
    else if te.stochExhaustion.getD 90 < cur.k ∧ cur.k < prev.k then some TechReason.stochExhaustion
    else if te.doubleReversal.getD (-50) < cur.w9 ∧ te.doubleReversal.getD (-50) < cur.w28 then
      some TechReason.doubleReversal
    else if 85 < prev.k ∧ cur.k < 70 then some TechReason.extremeMomentumReversal
    else if te.stochBearishCross = true ∧ prev.d ≤ prev.k ∧ cur.k < cur.d ∧ 70 < cur.k then
      some TechReason.stochBearishCross
    else none

def rat_mean (xs : List ℚ) : ℚ := xs.sum / xs.length

/-- Source `detect_big_move`.  A supplied override (the signal file's
`Big Move` column) is returned directly; otherwise the windowed-average
thresholds plus optional momentum confirmation decide.  The column-presence
tests (`'K' in window_data.columns`) are modelled as all bars of the window
carrying the indicator, which coincides with column presence for bars drawn
from one frame. -/
def detect_big_move (trade_data : List Bar) (entry_price : ℚ) (cfg : TradeConfig) (ty : TradeType) (ov : Option OverrideVal) : Bool :=
  match ov with
  | some (.ofBool b) => b
  | some (.ofString s) => s.toUpper == "TRUE"
  | none =>
    if cfg.signalDiff.enabled = false then false
    else
      let avg_window := cfg.signalDiff.avgWindowCandles
      if trade_data.length < avg_window then false
      else
        let window_data := trade_data.take avg_window
        let avg_stoch_k :=
          if window_data.all (fun b => b.k.isSome) then rat_mean (window_data.map (fun b => b.k.getD 0)) else 50
        let avg_r1 :=
          if window_data.all (fun b => b.r1.isSome) then rat_mean (window_data.map (fun b => b.r1.getD 0)) else -50
        let th? := match ty with
          | .call => cfg.signalDiff.bigmoveDetection.callThresholds
          | .put => cfg.signalDiff.bigmoveDetection.putThresholds
        let k_threshold := (th?.bind BigMoveThresholds.stochKThreshold).getD 78
        let r1_threshold := (th?.bind BigMoveThresholds.williamsR1Threshold).getD (-50)
        let primary_condition := decide (k_threshold < avg_stoch_k ∧ r1_threshold < avg_r1)
        let mc := cfg.signalDiff.bigmoveDetection.momentumConfirmation
        if mc.enabled = true ∧ primary_condition = true then
          let min_range_pct := mc.minCandleRangePct.getD 1.2
          let first_candle := window_data.headI
          let candle_range_pct := (first_candle.high - first_candle.low) / entry_price * 100
          if candle_range_pct < min_range_pct then false
          else
            let consecutive_moves := mc.consecutiveMoves.getD 2
            if consecutive_moves ≤ window_data.length then
              let pairs := (window_data.zip window_data.tail).take (min (consecutive_moves + 1) window_data.length - 1)
              let moves_in_direction := pairs.countP (fun pr =>
                match ty with
                | .call => decide (pr.1.close < pr.2.close)
                | .put => decide (pr.2.close < pr.1.close))
              if moves_in_direction < consecutive_moves then false else primary_condition
            else primary_condition
        else primary_condition

/-- Source `get_trailing_stage_config`: pick the BigMove trailing stage by
profit percent; each stage dict defaults to the hard-coded fallback
(3.0/8.0, 4.0/15.0, 6.0/25.0) when absent. -/
def get_trailing_stage_config (profit_pct : ℚ) (cfg : TradeConfig) : TrailingStage :=
  let tc := cfg.signalDiff.bigmoveTrailing
  if profit_pct < (tc.stage1.bind TrailingStage.profitThreshold).getD 25 then
    tc.stage1.getD ⟨none, 3, 8⟩
  else if profit_pct < (tc.stage2.bind TrailingStage.profitThreshold).getD 50 then
    tc.stage2.getD ⟨none, 4, 15⟩
  else tc.stage3.getD ⟨none, 6, 25⟩

/-- Source `get_time_based_adjustment`: dampen the trailing multiplier after
a configured number of minutes. -/
def get_time_based_adjustment (minutes_elapsed : ℚ) (cfg : TradeConfig) : ℚ :=
  let time_config := cfg.riskMgmt.timeBasedTrailing
  if time_config.enabled = false then 1
  else if time_config.tightenAfterMinutes.getD 30 < minutes_elapsed then
    time_config.tightenMultiplier.getD 0.8
  else 1

/-- Source `get_profit_protection_sl`: once highest-high profit reaches the
protect-after threshold, floor the stop at `entry * (1 + level/100)`;
otherwise 0 (no floor). -/
def get_profit_protection_sl (entry_price highest_high : ℚ) (cfg : TradeConfig) : ℚ :=
  let protection_config := cfg.riskMgmt.profitProtection
  if protection_config.enabled = false then 0
  else
    let profit_pct := (highest_high - entry_price) / entry_price * 100
    if protection_config.protectAfterPct.getD 30 ≤ profit_pct then
      entry_price * (1 + protection_config.protectionLevelPct.getD 20 / 100)
    else 0

/-- Last value of `pandas_ta.ema(xs, length := n)` (SMA seed for the first
`n` values, then the `alpha = 2/(n+1)` recursion with `adjust = False`);
`none` when the series is shorter than the period, matching the source's
`try/except` swallowing the resulting error. -/
def ema_last (n : ℕ) (xs : List ℚ) : Option ℚ :=
  if xs.length < n ∨ n = 0 then none
  else
    let sma := (xs.take n).sum / n
    let alpha : ℚ := 2 / (n + 1)
    some ((xs.drop n).foldl (fun acc x => alpha * x + (1 - alpha) * acc) sma)

/-- Source `should_exit_on_ema_cross`: gated on profit and candle count,
fires on a bearish EMA(short)/EMA(long) crossover, optionally confirmed by
stochastic momentum weakening.  `closes` is the close series of the full
trade frame; the source slices `iloc[:candle_count+1]`. -/
def should_exit_on_ema_cross (closes : List ℚ) (candle_count : ℕ) (current_profit_pct : ℚ) (cfg : TradeConfig) (current_close prev_k prev_d current_k current_d : ℚ) : Bool :=
  let ema_config := cfg.signalDiff.emaCrossExit
  if ema_config.enabled = false then false
  else
    let min_profit := ema_config.minProfitPct.getD 20
    let min_candles := ema_config.minCandlesBeforeExit.getD 8
    if current_profit_pct < min_profit ∨ candle_count < min_candles then false
    else
      let closes_series := closes.take (candle_count + 1)
      let periods := ema_config.emaPeriods.getD (9, 15)
      if max periods.1 periods.2 ≤ closes_series.length then
        if 1 < closes_series.length then
          match ema_last periods.1 closes_series, ema_last periods.2 closes_series,
                ema_last periods.1 closes_series.dropLast, ema_last periods.2 closes_series.dropLast with
          | some ema_short, some ema_long, some prev_ema_short, some prev_ema_long =>
            if prev_ema_long ≤ prev_ema_short ∧ ema_short < ema_long then
              if ema_config.confirmationFilters.momentumWeakening then
                decide (prev_d < prev_k ∧ current_k ≤ current_d)
              else true
            else false
          | _, _, _, _ => false
        else false
      else false

/-- Per-trade constants fixed at entry. -/
structure TradeParams where
  cfg : TradeConfig
  entryPrice : ℚ
  initialSlPct : ℚ
  tier : PremiumTier
  isBigMove : Bool
  isAverageSignal : Bool
  entryRiskLevel : RiskLevel
  entryTimestamp : ℕ
  deriving DecidableEq

/-- The loop-carried mutable state of `execute_advanced_hybrid_premium_trade`
(the source's local variables).  `closes` accumulates the close prices of
the bars seen so far, entry bar included: it equals the source's
`trade_data['close'].iloc[:candle_count+1]` slice. -/
structure TradeState where
  currentSl : ℚ
  highestHigh : ℚ
  trailActive : Bool
  candleCount : ℕ
  stallCount : ℕ
  breakevenDelayCounter : ℕ
  yellowFlagTriggered : Bool
  technicalExitAvailable : Bool
  slTightenedByYellowFlag : Bool
  prevWr28 : ℚ
  prevWr9 : ℚ
  prevK : ℚ
  prevD : ℚ
  closes : List ℚ
  deriving DecidableEq

structure ExitInfo where
  price : ℚ
  time : ℕ
  reason : ExitReason
  deriving DecidableEq

/-- The source's ratcheting idiom `current_sl = max(current_sl, v)`. -/
def raiseSl (s : TradeState) (v : ℚ) : TradeState :=
  { s with currentSl := max s.currentSl v }

/-- Yellow-flag early-warning block of the main loop (evaluated until
triggered): on fire, mark triggered and — once — ratchet the stop to the
initial SL percent tightened by `TIGHTEN_SL_PCT`. -/
def applyYellowFlag (p : TradeParams) (s : TradeState) (cur prev : IndVals) : TradeState :=
  if s.yellowFlagTriggered then s
  else if detect_yellow_flag_conditions cur prev p.cfg then
    if s.slTightenedByYellowFlag = false then
      let tighten_pct := p.cfg.enhancedSl.yellowFlag.tightenSlPct.getD 1.5
      let tightened_sl := p.entryPrice * (1 - (p.initialSlPct - tighten_pct) / 100)
      { raiseSl s tightened_sl with yellowFlagTriggered := true, slTightenedByYellowFlag := true }
    else { s with yellowFlagTriggered := true }
  else s

/-- Technical-exit block of the main loop (evaluated until a signal was
seen): a firing signal forces an exit at the close only for a losing trade
(< -2%), a barely-profitable non-BigMove (< 1%), or a losing HIGH_RISK
entry; otherwise it only tightens the stop by 1% when currently losing and
the yellow flag has not already tightened it. -/
def applyTechExit (p : TradeParams) (s : TradeState) (cur prev : IndVals) (current_profit_pct : ℚ) (bar_time : ℕ) (current_close : ℚ) : TradeState × Option ExitInfo :=
  if s.technicalExitAvailable then (s, none)
  else
    match check_technical_exit_conditions cur prev p.cfg with
    | none => (s, none)
    | some reason =>
      let s := { s with technicalExitAvailable := true }
      if current_profit_pct < -2 ∨ (current_profit_pct < 1 ∧ p.isBigMove = false) ∨
         (p.entryRiskLevel = RiskLevel.high ∧ current_profit_pct < 0) then
        (s, some ⟨current_close, bar_time, ExitReason.techExit reason⟩)
      else if s.slTightenedByYellowFlag = false ∧ current_profit_pct < 0 then
        (raiseSl s (p.entryPrice * (1 - (p.initialSlPct - 1) / 100)), none)
      else (s, none)

/-- Average-signal management branch: fixed TP, quick breakeven, stall
handling, Williams exits. -/
def manageAverageSignal (p : TradeParams) (s : TradeState) (bar : Bar) (cur : IndVals) (current_profit_pct : ℚ) : TradeState × Option ExitInfo :=
  let fixed_tp_points := p.cfg.avgSignal.fixedTpPoints.getD 10
  if p.entryPrice + fixed_tp_points ≤ bar.high then
    (s, some ⟨p.entryPrice + fixed_tp_points, bar.time, ExitReason.fixedTpAvg⟩)
  else
    let breakeven_pct := p.cfg.avgSignal.quickExit.breakevenAfterPct.getD 4
    let s := if breakeven_pct ≤ current_profit_pct then raiseSl s p.entryPrice else s
    let avg_stall_candles := p.cfg.avgSignal.quickExit.stallCandles.getD 5
    let candle_range := bar.high - bar.low
    let s := if candle_range < p.entryPrice * (p.cfg.stallThresholdPct.getD 1.5 / 100) then
        { s with stallCount := s.stallCount + 1 }
      else { s with stallCount := 0 }
    let s := if avg_stall_candles ≤ s.stallCount then raiseSl s (min bar.close p.entryPrice) else s
    if p.cfg.avgSignal.quickExit.williamsExitEnabled then
      let w28t := p.cfg.williams28CrossUnder.getD (-80)
      let w9t := p.cfg.williams9CrossUnder.getD (-80)
      if (w28t < s.prevWr28 ∧ cur.w28 ≤ w28t) ∨ (3 < current_profit_pct ∧ w9t < s.prevWr9 ∧ cur.w9 ≤ w9t) then
        (s, some ⟨bar.close, bar.time, ExitReason.williamsAvg⟩)
      else (s, none)
    else (s, none)

/-- BigMove management branch: activate trailing at the tier's trail-start
percent, then multi-stage ATR trailing with time dampening and profit
protection, plus the enhanced EMA crossover exit. -/
def manageBigMove (p : TradeParams) (s : TradeState) (bar : Bar) (cur : IndVals) (profit_pct current_profit_pct minutes_elapsed : ℚ) : TradeState × Option ExitInfo :=
  let s := if s.trailActive = false ∧ p.tier.trailStartPct ≤ profit_pct then
      { s with trailActive := true }
    else s
  let s := if s.trailActive then
      let atr_val := bar.atr.getD 0
      let stage := get_trailing_stage_config profit_pct p.cfg
      let time_adjustment := get_time_based_adjustment minutes_elapsed p.cfg
      let atr_multiplier := stage.atrMultiplier * time_adjustment
      let trailed_sl := s.highestHigh - atr_val * atr_multiplier
      let min_sl := p.entryPrice * (1 - stage.minSlPct / 100)
      let protected_sl := get_profit_protection_sl p.entryPrice s.highestHigh p.cfg
      raiseSl s (max (max trailed_sl min_sl) protected_sl)
    else s
  if should_exit_on_ema_cross s.closes s.candleCount current_profit_pct p.cfg bar.close s.prevK s.prevD cur.k cur.d then
    (s, some ⟨bar.close, bar.time, ExitReason.emaBigMove⟩)
  else (s, none)

/-- Regular-trade branch (neither average nor BigMove): single-multiplier
ATR trailing with an 8% minimum, delayed breakeven, quick TP with optional
stochastic-fade gate. -/
def manageRegular (p : TradeParams) (s : TradeState) (bar : Bar) (cur : IndVals) (profit_pct : ℚ) : TradeState × Option ExitInfo :=
  let s := if s.trailActive = false ∧ p.tier.trailStartPct ≤ profit_pct then
      { s with trailActive := true }
    else s
  let s := if s.trailActive then
      let atr_val := bar.atr.getD 0
      let trailed_sl := s.highestHigh - atr_val * 1
      let min_sl := p.entryPrice * (1 - 8 / 100)
      raiseSl s (max trailed_sl min_sl)
    else s
  let s := if p.cfg.breakevenMovePct.getD 4 ≤ profit_pct then
      let s := { s with breakevenDelayCounter := s.breakevenDelayCounter + 1 }
      if p.tier.breakevenDelay ≤ s.breakevenDelayCounter then raiseSl s p.entryPrice else s
    else s
  let quick_tp := p.cfg.quickTpPoints.getD 10
  if p.entryPrice + quick_tp ≤ bar.high then
    if p.cfg.useStochFadeForTp = false ∨ (s.prevD < s.prevK ∧ cur.k ≤ cur.d) then
      (s, some ⟨p.entryPrice + quick_tp, bar.time, ExitReason.quickTp⟩)
    else (s, none)
  else (s, none)

/-- The if/elif/else dispatch of the main loop over the three management
styles: average signal, BigMove, regular. -/
def stepBranch (p : TradeParams) (s : TradeState) (bar : Bar) (cur : IndVals) (profit_pct current_profit_pct minutes_elapsed : ℚ) : TradeState × Option ExitInfo :=
  if p.isAverageSignal then manageAverageSignal p s bar cur current_profit_pct
  else if p.isBigMove then manageBigMove p s bar cur profit_pct current_profit_pct minutes_elapsed
  else manageRegular p s bar cur profit_pct

/-- Propagate an exit produced by the technical-exit block; otherwise run
the management branch on the surviving state. -/
def afterTech (p : TradeParams) (bar : Bar) (cur : IndVals) (profit_pct current_profit_pct minutes_elapsed : ℚ) : TradeState × Option ExitInfo → TradeState × Option ExitInfo
  | (s, some e) => (s, some e)
  | (s, none) => stepBranch p s bar cur profit_pct current_profit_pct minutes_elapsed

/-- One loop iteration up to (and excluding) the universal stop check:
counter/highest-high updates, yellow flag, technical exit, and the
per-signal-type management branch. -/
def stepPreSl (p : TradeParams) (s : TradeState) (bar : Bar) : TradeState × Option ExitInfo :=
  let s := { s with candleCount := s.candleCount + 1, closes := s.closes ++ [bar.close] }
  let cur : IndVals := ⟨bar.k.getD 50, bar.d.getD 50, bar.r.getD 0, bar.r1.getD 0⟩
  let prev : IndVals := ⟨s.prevK, s.prevD, s.prevWr9, s.prevWr28⟩
  let s := { s with highestHigh := max s.highestHigh bar.high }
  let profit_pct := (s.highestHigh - p.entryPrice) / p.entryPrice * 100
  let current_profit_pct := (bar.close - p.entryPrice) / p.entryPrice * 100
  let s := applyYellowFlag p s cur prev
  afterTech p bar cur profit_pct current_profit_pct ((bar.time : ℚ) - (p.entryTimestamp : ℚ))
    (applyTechExit p s cur prev current_profit_pct bar.time bar.close)

/-- One full loop iteration: `stepPreSl`, then the universal stop check
(exit at `currentSl`, reason `Trailing SL` or `SL Hit`), then the
previous-indicator rollover when the loop continues. -/
def stepBar (p : TradeParams) (s : TradeState) (bar : Bar) : TradeState × Option ExitInfo :=
  match stepPreSl p s bar with
  | (s, some e) => (s, some e)
  | (s, none) =>
    if bar.low ≤ s.currentSl then
      (s, some ⟨s.currentSl, bar.time, if s.trailActive then ExitReason.trailingSl else ExitReason.slHit⟩)
    else
      ({ s with prevWr28 := bar.r1.getD 0, prevWr9 := bar.r.getD 0,
                prevK := bar.k.getD 50, prevD := bar.d.getD 50 }, none)

/-- The `for` loop over `trade_data.iloc[1:]`: fold `stepBar` until an exit
fires or the bars run out; returns the state at loop end together with the
exit, if any. -/
def runBars (p : TradeParams) : TradeState → List Bar → TradeState × Option ExitInfo
  | s, [] => (s, none)
  | s, bar :: rest =>
    match stepBar p s bar with
    | (s, some e) => (s, some e)
    | (s, none) => runBars p s rest

structure TradeRecord where
  entryTime : ℕ
  entryPrice : ℚ
  exitTime : ℕ
  exitPrice : ℚ
  pl : ℚ
  plPct : ℚ
  exitReason : ExitReason
  initialSl : ℚ
  finalSl : ℚ
  highestHigh : ℚ
  bigMove : Bool
  deriving DecidableEq

/-- Record emission at the end of `execute_advanced_hybrid_premium_trade`:
`pl = exit − entry`, and `pl_pct = pl/entry*100` guarded by
`entry_price > 0` (else 0).  The source formats these as strings for the
CSV row; we keep the numbers. -/
def mk_trade_record (entry_time : ℕ) (entry_price : ℚ) (exit_time : ℕ) (exit_price : ℚ) (reason : ExitReason) (initial_sl final_sl highest_high : ℚ) (big_move : Bool) : TradeRecord :=
  let pl := exit_price - entry_price
  let pl_pct := if 0 < entry_price then pl / entry_price * 100 else 0
  ⟨entry_time, entry_price, exit_time, exit_price, pl, pl_pct, reason,
   initial_sl, final_sl, highest_high, big_move⟩

/-- Entry-time setup of `execute_advanced_hybrid_premium_trade`: premium
tier, dynamic initial SL, BigMove/average-signal classification, entry risk
level, and the initial loop state seeded from the entry bar. -/
def init_trade (entryBar : Bar) (trade_rest : List Bar) (entry_price : ℚ) (cfg : TradeConfig) (entry_time : ℕ) (ty : TradeType) (ov : Option OverrideVal) : TradeParams × TradeState :=
  let tier := get_premium_tier entry_price cfg.premiumTiers cfg.premiumTierHigh
  let initial_sl_pct := get_dynamic_sl_percent entryBar entry_price cfg tier
  let initial_sl := entry_price * (1 - initial_sl_pct / 100)
  let is_big_move := detect_big_move (entryBar :: trade_rest) entry_price cfg ty ov
  let is_average_signal := !is_big_move && cfg.avgSignal.enabled
  let p : TradeParams :=
    ⟨cfg, entry_price, initial_sl_pct, tier, is_big_move, is_average_signal,
     assess_entry_risk_level entryBar, entry_time⟩
  let s : TradeState :=
    { currentSl := initial_sl, highestHigh := entryBar.high, trailActive := false,
      candleCount := 0, stallCount := 0, breakevenDelayCounter := 0,
      yellowFlagTriggered := false, technicalExitAvailable := false,
      slTightenedByYellowFlag := false,
      prevWr28 := entryBar.r1.getD 0, prevWr9 := entryBar.r.getD 0,
      prevK := entryBar.k.getD 50, prevD := entryBar.d.getD 50,
      closes := [entryBar.close] }
  (p, s)

/-- Source `execute_advanced_hybrid_premium_trade`: set up, run the bar
loop, fall back to an `End of Data` close at the last bar when no exit rule
fired, and emit the record.  `entryBar :: trade_rest` is the `trade_data`
frame (entry bar first); `entry_time` is the entry bar's timestamp as
passed by the caller. -/
def execute_advanced_hybrid_premium_trade (entryBar : Bar) (trade_rest : List Bar) (entry_price : ℚ) (cfg : TradeConfig) (entry_time : ℕ) (ty : TradeType) (ov : Option OverrideVal) : TradeRecord :=
  let ps := init_trade entryBar trade_rest entry_price cfg entry_time ty ov
  match runBars ps.1 ps.2 trade_rest with
  | (sF, some e) =>
    mk_trade_record entry_time entry_price e.time e.price e.reason
      ps.2.currentSl sF.currentSl sF.highestHigh ps.1.isBigMove
  | (sF, none) =>
    let lastBar := (entryBar :: trade_rest).getLast (List.cons_ne_nil _ _)
    mk_trade_record entry_time entry_price lastBar.time lastBar.close ExitReason.endOfData
      ps.2.currentSl sF.currentSl sF.highestHigh ps.1.isBigMove

/-- One signal row of the filtered signal frame (rows with the signal
column equal to 1). -/
structure EntrySignal where
  time : ℕ
  bigMove : Option OverrideVal
  deriving DecidableEq

/-- `prices_df.index.get_loc(signal_time)` followed by
`iloc[next_bar_index:]`: the bars strictly after the first bar whose
timestamp equals the signal's, or `none` when the signal time is not in the
index. -/
def bars_from_signal (t : ℕ) : List Bar → Option (List Bar)
  | [] => none
  | b :: rest => if b.time = t then some rest else bars_from_signal t rest

/-- The overlap guard of `execute_option_trades`: a trade is active when an
exit time is recorded and the signal is at or before it. -/
def active_trade (exitT? : Option ℕ) (t : ℕ) : Bool :=
  match exitT? with
  | some e => t ≤ e
  | none => false

/-- The signal loop of `execute_option_trades`, threading the last exit
time: signals after `LAST_ENTRY_TIME`, signals during an active trade,
signals missing from the price index, and signals without a next candle are
skipped; each admitted signal is executed on the next candle after it, at
that candle's open. -/
def execute_option_trades_go (prices : List Bar) (last_entry_time : ℕ) (cfg : TradeConfig) (ty : TradeType) : Option ℕ → List EntrySignal → List TradeRecord
  | _, [] => []
  | exitT?, sig :: rest =>
    if last_entry_time < sig.time then
      execute_option_trades_go prices last_entry_time cfg ty exitT? rest
    else if active_trade exitT? sig.time then
      execute_option_trades_go prices last_entry_time cfg ty exitT? rest
    else
      match bars_from_signal sig.time prices with
      | none => execute_option_trades_go prices last_entry_time cfg ty exitT? rest
      | some [] => execute_option_trades_go prices last_entry_time cfg ty exitT? rest
      | some (entryBar :: trade_rest) =>
        let r := execute_advanced_hybrid_premium_trade entryBar trade_rest entryBar.open_ cfg entryBar.time ty sig.bigMove
        r :: execute_option_trades_go prices last_entry_time cfg ty (some r.exitTime) rest

/-- Source `execute_option_trades` (its in-memory result list; CSV output
is the caller's concern). -/
def execute_option_trades (prices : List Bar) (last_entry_time : ℕ) (cfg : TradeConfig) (ty : TradeType) (signals : List EntrySignal) : List TradeRecord :=
  execute_option_trades_go prices last_entry_time cfg ty none signals

/-- Count of signals admitted by the loop of `execute_option_trades`
(same skip conditions, same exit-time threading). -/
def admitted_signal_count (prices : List Bar) (last_entry_time : ℕ) (cfg : TradeConfig) (ty : TradeType) : Option ℕ → List EntrySignal → ℕ
  | _, [] => 0
  | exitT?, sig :: rest =>
    if last_entry_time < sig.time then
      admitted_signal_count prices last_entry_time cfg ty exitT? rest
    else if active_trade exitT? sig.time then
      admitted_signal_count prices last_entry_time cfg ty exitT? rest
    else
      match bars_from_signal sig.time prices with
      | none => admitted_signal_count prices last_entry_time cfg ty exitT? rest
      | some [] => admitted_signal_count prices last_entry_time cfg ty exitT? rest
      | some (entryBar :: trade_rest) =>
        let r := execute_advanced_hybrid_premium_trade entryBar trade_rest entryBar.open_ cfg entryBar.time ty sig.bigMove
        1 + admitted_signal_count prices last_entry_time cfg ty (some r.exitTime) rest

/-! ### Concrete data for evaluations -/

/-- A configuration with every optional feature disabled or absent. -/
def cfgOff : TradeConfig :=
  { premiumTiers := [],
    premiumTierHigh := ⟨none, none, 4, 2, 1000⟩,
    slPercent := none,
    breakevenMovePct := none,
    stallThresholdPct := none,
    quickTpPoints := none,
    williams28CrossUnder := none,
    williams9CrossUnder := none,
    useStochFadeForTp := false,
    enhancedSl :=
      { enabled := false,
        dynamicSl := ⟨⟨none, none, none⟩, ⟨none, none, none⟩, ⟨none, none, none⟩⟩,
        timeBasedSl := ⟨false, none, none⟩,
        yellowFlag := ⟨false, none, none, none, none⟩,
        technicalExits := ⟨false, none, none, none, false⟩ },
    signalDiff :=
      { enabled := false,
        avgWindowCandles := 3,
        bigmoveDetection := ⟨none, none, ⟨false, none, none⟩⟩,
        bigmoveTrailing := ⟨none, none, none⟩,
        emaCrossExit := ⟨false, none, none, none, ⟨false⟩⟩ },
    avgSignal := ⟨false, none, ⟨none, none, true⟩⟩,
    riskMgmt := ⟨⟨false, none, none⟩, ⟨false, none, none⟩⟩ }

/-- `cfgOff` with enhanced SL management enabled and all its sub-options at
their call-site defaults. -/
def cfgDyn : TradeConfig :=
  { cfgOff with enhancedSl := { cfgOff.enhancedSl with enabled := true } }

/-- `cfgOff` with enhanced SL management and technical exits enabled. -/
def cfgTech : TradeConfig :=
  { cfgOff with enhancedSl :=
      { cfgOff.enhancedSl with enabled := true, technicalExits := ⟨true, none, none, none, false⟩ } }

/-- `cfgOff` with signal differentiation enabled (window of 3 candles). -/
def cfgSigDiff : TradeConfig :=
  { cfgOff with signalDiff := { cfgOff.signalDiff with enabled := true } }

/-- Entry bar of Scenario A: `K = 90`, fast Williams `%R = -10`, at 11:00 so
no time-of-day adjustment window applies. -/
def barScenA : Bar := ⟨660, 100, 100, 100, 100, some 90, some 50, some (-10), some (-50), none⟩

def tierWide : PremiumTier := ⟨none, none, 4, 2, 1000⟩

def pReg : TradeParams := ⟨cfgOff, 100, 5, tierWide, false, false, RiskLevel.low, 0⟩

def sReg : TradeState := ⟨95, 100, false, 0, 0, 0, false, false, false, 0, 0, 50, 50, [100]⟩

def barDown : Bar := ⟨5, 100, 100, 94, 99, none, none, none, none, none⟩

def sRegStepped : TradeState := { sReg with candleCount := 1, closes := [100, 99] }

def barStrong : Bar := ⟨0, 100, 103, 99, 102, some 100, some 100, some 0, some 0, some 1⟩

def entryBarFlat : Bar := ⟨0, 100, 100, 99, 100, none, none, none, none, none⟩

def barFlat2 : Bar := ⟨1, 100, 101, 99, 100.5, none, none, none, none, none⟩

def pTech : TradeParams := ⟨cfgTech, 100, 6, tierWide, true, false, RiskLevel.low, 0⟩

def sTech : TradeState := ⟨94, 104, false, 1, 0, 0, false, false, false, 0, 0, 50, 50, [100, 104]⟩

def curHotW9 : IndVals := ⟨50, 50, 0, 0⟩

def prevNeutral : IndVals := ⟨50, 50, -90, -90⟩

def stageA : TrailingStage := ⟨some 25, 3, 8⟩

def stageB : TrailingStage := ⟨some 50, 4, 15⟩

def stageC : TrailingStage := ⟨none, 6, 25⟩

/-- `cfgOff` with the three BigMove trailing stages configured at their
default thresholds (25 and 50). -/
def cfgStages : TradeConfig :=
  { cfgOff with signalDiff :=
      { cfgOff.signalDiff with bigmoveTrailing := ⟨some stageA, some stageB, some stageC⟩ } }

def tierTen : PremiumTier := ⟨none, none, 4, 2, 10⟩

def pBig : TradeParams := ⟨cfgStages, 100, 6, tierTen, true, false, RiskLevel.low, 0⟩

def sBig : TradeState := ⟨96, 130, true, 3, 0, 0, false, false, false, 0, 0, 50, 50, [100, 110, 120, 130]⟩

def barBig : Bar := ⟨4, 128, 130, 126, 128, none, none, none, none, some 2⟩

def curNeutral : IndVals := ⟨50, 50, -90, -90⟩

def barW1 : Bar := ⟨1, 100, 100, 99, 100, none, none, none, none, none⟩

def barW2 : Bar := ⟨2, 100, 100, 99, 100, none, none, none, none, none⟩

def barW3 : Bar := ⟨3, 100, 101, 99, 100, none, none, none, none, none⟩

def pricesW : List Bar := [barW1, barW2, barW3]

def sigsW : List EntrySignal := [⟨1, none⟩]

/-! ### Helper lemmas -/

theorem raiseSl_le (s : TradeState) (v : ℚ) : s.currentSl ≤ (raiseSl s v).currentSl :=
  le_max_left _ _

theorem applyYellowFlag_mono (p : TradeParams) (s : TradeState) (cur prev : IndVals) :
    s.currentSl ≤ (applyYellowFlag p s cur prev).currentSl ∧
    (applyYellowFlag p s cur prev).highestHigh = s.highestHigh := by
  simp only [applyYellowFlag]
  split_ifs <;> simp [raiseSl, le_max_iff]

theorem applyTechExit_mono (p : TradeParams) (s : TradeState) (cur prev : IndVals) (pct : ℚ) (t : ℕ) (c : ℚ) :
    s.currentSl ≤ (applyTechExit p s cur prev pct t c).1.currentSl ∧
    (applyTechExit p s cur prev pct t c).1.highestHigh = s.highestHigh := by
  simp only [applyTechExit]
  split
  · exact ⟨le_rfl, rfl⟩
  · split
    · exact ⟨le_rfl, rfl⟩
    · split_ifs <;> simp [raiseSl, le_max_iff]

theorem manageAverageSignal_mono (p : TradeParams) (s : TradeState) (bar : Bar) (cur : IndVals) (pct : ℚ) :
    s.currentSl ≤ (manageAverageSignal p s bar cur pct).1.currentSl ∧
    (manageAverageSignal p s bar cur pct).1.highestHigh = s.highestHigh := by
  simp only [manageAverageSignal]
  split_ifs <;> simp [raiseSl, le_max_iff]

theorem manageBigMove_mono (p : TradeParams) (s : TradeState) (bar : Bar) (cur : IndVals) (pp cpp me : ℚ) :
    s.currentSl ≤ (manageBigMove p s bar cur pp cpp me).1.currentSl ∧
    (manageBigMove p s bar cur pp cpp me).1.highestHigh = s.highestHigh := by
  simp only [manageBigMove]
  split_ifs <;> simp [raiseSl, le_max_iff]

set_option maxHeartbeats 1000000 in
theorem manageRegular_mono (p : TradeParams) (s : TradeState) (bar : Bar) (cur : IndVals) (pp : ℚ) :
    s.currentSl ≤ (manageRegular p s bar cur pp).1.currentSl ∧
    (manageRegular p s bar cur pp).1.highestHigh = s.highestHigh := by
  simp only [manageRegular]
  split_ifs <;> simp [raiseSl, le_max_iff]

theorem stepBranch_mono (p : TradeParams) (s : TradeState) (bar : Bar) (cur : IndVals) (pp cpp me : ℚ) :
    s.currentSl ≤ (stepBranch p s bar cur pp cpp me).1.currentSl ∧
    (stepBranch p s bar cur pp cpp me).1.highestHigh = s.highestHigh := by
  unfold stepBranch
  split_ifs
  exacts [manageAverageSignal_mono p s bar cur cpp, manageBigMove_mono p s bar cur pp cpp me,
    manageRegular_mono p s bar cur pp]

theorem afterTech_mono (p : TradeParams) (bar : Bar) (cur : IndVals) (pp cpp me : ℚ) (t : TradeState × Option ExitInfo) :
    t.1.currentSl ≤ (afterTech p bar cur pp cpp me t).1.currentSl ∧
    (afterTech p bar cur pp cpp me t).1.highestHigh = t.1.highestHigh := by
  obtain ⟨s', e?⟩ := t
  cases e?
  · exact stepBranch_mono p s' bar cur pp cpp me
  · exact ⟨le_rfl, rfl⟩

theorem stepPreSl_mono (p : TradeParams) (s : TradeState) (bar : Bar) :
    s.currentSl ≤ (stepPreSl p s bar).1.currentSl ∧
    s.highestHigh ≤ (stepPreSl p s bar).1.highestHigh := by
  have hstep : stepPreSl p s bar =
      afterTech p bar ⟨bar.k.getD 50, bar.d.getD 50, bar.r.getD 0, bar.r1.getD 0⟩
        ((max s.highestHigh bar.high - p.entryPrice) / p.entryPrice * 100)
        ((bar.close - p.entryPrice) / p.entryPrice * 100)
        ((bar.time : ℚ) - (p.entryTimestamp : ℚ))
        (applyTechExit p
          (applyYellowFlag p
            { s with candleCount := s.candleCount + 1, closes := s.closes ++ [bar.close],
                     highestHigh := max s.highestHigh bar.high }
            ⟨bar.k.getD 50, bar.d.getD 50, bar.r.getD 0, bar.r1.getD 0⟩
            ⟨s.prevK, s.prevD, s.prevWr9, s.prevWr28⟩)
          ⟨bar.k.getD 50, bar.d.getD 50, bar.r.getD 0, bar.r1.getD 0⟩
          ⟨s.prevK, s.prevD, s.prevWr9, s.prevWr28⟩
          ((bar.close - p.entryPrice) / p.entryPrice * 100) bar.time bar.close) := rfl
  rw [hstep]
  set CUR : IndVals := ⟨bar.k.getD 50, bar.d.getD 50, bar.r.getD 0, bar.r1.getD 0⟩ with hCUR
  set PREV : IndVals := ⟨s.prevK, s.prevD, s.prevWr9, s.prevWr28⟩ with hPREV
  set S2 : TradeState :=
    { s with candleCount := s.candleCount + 1, closes := s.closes ++ [bar.close],
             highestHigh := max s.highestHigh bar.high } with hS2
  set PP := (max s.highestHigh bar.high - p.entryPrice) / p.entryPrice * 100 with hPP
  set CPP := (bar.close - p.entryPrice) / p.entryPrice * 100 with hCPP
  set ME := (bar.time : ℚ) - (p.entryTimestamp : ℚ) with hME
  set Y := applyYellowFlag p S2 CUR PREV with hY
  set T := applyTechExit p Y CUR PREV CPP bar.time bar.close with hT
  obtain ⟨hy1, hy2⟩ := applyYellowFlag_mono p S2 CUR PREV
  obtain ⟨ht1, ht2⟩ := applyTechExit_mono p Y CUR PREV CPP bar.time bar.close
  obtain ⟨ha1, ha2⟩ := afterTech_mono p bar CUR PP CPP ME T
  rw [← hY] at hy1 hy2
  rw [← hT] at ht1 ht2
  constructor
  · exact hy1.trans (ht1.trans ha1)
  · rw [ha2, ht2, hy2]
    exact le_max_left _ _

/-- C1: within one position, every per-bar update of the simulator ratchets:
the stop loss and the highest high after processing a bar are at least
their values before it, whichever branch (yellow flag, technical exit,
average-signal, BigMove or regular management, stop check) ran. -/
theorem stop_and_high_never_decrease (p : TradeParams) (s : TradeState) (bar : Bar) :
    s.currentSl ≤ (stepBar p s bar).1.currentSl ∧
    s.highestHigh ≤ (stepBar p s bar).1.highestHigh := by
  have h := stepPreSl_mono p s bar
  unfold stepBar
  rcases hm : stepPreSl p s bar with ⟨s', e?⟩
  rw [hm] at h
  cases e? with
  | none =>
    dsimp only
    split_ifs <;> exact h
  | some e => exact h

/-- C5: when no earlier exit rule fired on the bar (the pre-stop phase
returned no exit) and the bar's low reaches the current stop, the step
exits at exactly the current stop price, with reason `Trailing SL` when
trailing is active and `SL Hit` otherwise. -/
theorem universal_stop_check_exit (p : TradeParams) (s s' : TradeState) (bar : Bar)
    (h1 : stepPreSl p s bar = (s', none)) (h2 : bar.low ≤ s'.currentSl) :
    stepBar p s bar = (s', some ⟨s'.currentSl, bar.time,
      if s'.trailActive then ExitReason.trailingSl else ExitReason.slHit⟩) := by
  unfold stepBar
  rw [h1]
  simp [h2]

theorem universal_stop_check_exit_witness :
    stepPreSl pReg sReg barDown = (sRegStepped, none) ∧ barDown.low ≤ sRegStepped.currentSl ∧
    stepBar pReg sReg barDown = (sRegStepped, some ⟨sRegStepped.currentSl, barDown.time,
      if sRegStepped.trailActive then ExitReason.trailingSl else ExitReason.slHit⟩) := by
  have h1 : stepPreSl pReg sReg barDown = (sRegStepped, none) := by
    norm_num [stepPreSl, afterTech, stepBranch, applyYellowFlag, applyTechExit, detect_yellow_flag_conditions, check_technical_exit_conditions, manageRegular, manageAverageSignal, manageBigMove, raiseSl, should_exit_on_ema_cross, get_trailing_stage_config, get_time_based_adjustment, get_profit_protection_sl, pReg, sReg, barDown, sRegStepped, cfgOff, tierWide]
  have h2 : barDown.low ≤ sRegStepped.currentSl := by
    norm_num [barDown, sRegStepped, sReg]
  exact ⟨h1, h2, universal_stop_check_exit pReg sReg sRegStepped barDown h1 h2⟩

/-- C8: a supplied BigMove override is returned as-is by the detector, for
every bar series, entry price, configuration and direction; in particular a
forced `true` always yields `true`. -/
theorem detect_big_move_override_passthrough (trade_data : List Bar) (entry_price : ℚ)
    (cfg : TradeConfig) (ty : TradeType) (b : Bool) :
    detect_big_move trade_data entry_price cfg ty (some (OverrideVal.ofBool b)) = b := rfl

/-- C10: without an override, a bar series shorter than `AVG_WINDOW_CANDLES`
makes the detector return `false`, whatever the indicator contents. -/
theorem detect_big_move_short_series_false (trade_data : List Bar) (entry_price : ℚ)
    (cfg : TradeConfig) (ty : TradeType)
    (h : trade_data.length < cfg.signalDiff.avgWindowCandles) :
    detect_big_move trade_data entry_price cfg ty none = false := by
  by_cases he : cfg.signalDiff.enabled = false
  · simp [detect_big_move, he]
  · simp [detect_big_move, he, h]

theorem detect_big_move_short_series_false_witness :
    [barStrong].length < cfgSigDiff.signalDiff.avgWindowCandles ∧
    detect_big_move [barStrong] 100 cfgSigDiff TradeType.call none = false := by
  have h : [barStrong].length < cfgSigDiff.signalDiff.avgWindowCandles := by
    norm_num [cfgSigDiff, cfgOff]
  exact ⟨h, detect_big_move_short_series_false [barStrong] 100 cfgSigDiff TradeType.call h⟩

/-- C9: the emitted record satisfies `pl = exitPrice − entryPrice`, and its
percent P/L is `pl/entryPrice*100` when the entry price is positive and `0`
otherwise (the computation is total). -/
theorem trade_record_pnl (entryBar : Bar) (trade_rest : List Bar) (entry_price : ℚ)
    (cfg : TradeConfig) (entry_time : ℕ) (ty : TradeType) (ov : Option OverrideVal) :
    (execute_advanced_hybrid_premium_trade entryBar trade_rest entry_price cfg entry_time ty ov).pl =
      (execute_advanced_hybrid_premium_trade entryBar trade_rest entry_price cfg entry_time ty ov).exitPrice -
      (execute_advanced_hybrid_premium_trade entryBar trade_rest entry_price cfg entry_time ty ov).entryPrice ∧
    (execute_advanced_hybrid_premium_trade entryBar trade_rest entry_price cfg entry_time ty ov).plPct =
      (if 0 < (execute_advanced_hybrid_premium_trade entryBar trade_rest entry_price cfg entry_time ty ov).entryPrice then
        (execute_advanced_hybrid_premium_trade entryBar trade_rest entry_price cfg entry_time ty ov).pl /
          (execute_advanced_hybrid_premium_trade entryBar trade_rest entry_price cfg entry_time ty ov).entryPrice * 100
      else 0) := by
  simp only [execute_advanced_hybrid_premium_trade]
  rcases runBars (init_trade entryBar trade_rest entry_price cfg entry_time ty ov).1
      (init_trade entryBar trade_rest entry_price cfg entry_time ty ov).2 trade_rest with ⟨sF, e?⟩
  cases e? <;> simp [mk_trade_record]

/-- C2: once a technical-exit condition fires on a bar, a BigMove trade
with close-based profit of at least 1% is not closed and its stop is left
unchanged (only the availability flag is set); in general the block closes
the trade exactly when the trade is losing more than 2%, or profit is below
1% on a non-BigMove, or the entry was HIGH_RISK and profit is negative; and
with non-negative profit the block never moves the stop. -/
theorem technical_exit_gating (p : TradeParams) (s : TradeState) (cur prev : IndVals)
    (pct : ℚ) (t : ℕ) (c : ℚ) (r : TechReason)
    (hfire : check_technical_exit_conditions cur prev p.cfg = some r)
    (hav : s.technicalExitAvailable = false) :
    (p.isBigMove = true → 1 ≤ pct →
      applyTechExit p s cur prev pct t c = ({ s with technicalExitAvailable := true }, none)) ∧
    ((applyTechExit p s cur prev pct t c).2 = some ⟨c, t, ExitReason.techExit r⟩ ↔
      (pct < -2 ∨ (pct < 1 ∧ p.isBigMove = false) ∨ (p.entryRiskLevel = RiskLevel.high ∧ pct < 0))) ∧
    (0 ≤ pct → ((applyTechExit p s cur prev pct t c).1).currentSl = s.currentSl) := by
  have hft : ¬(false = true) := by simp
  simp only [applyTechExit, hav, hfire, if_neg hft]
  refine ⟨?_, ?_, ?_⟩
  · intro hb hp
    have hc1 : ¬(pct < -2 ∨ (pct < 1 ∧ p.isBigMove = false) ∨
        (p.entryRiskLevel = RiskLevel.high ∧ pct < 0)) := by
      rintro (h | ⟨h, _⟩ | ⟨_, h⟩) <;> linarith
    have hc2 : ¬(s.slTightenedByYellowFlag = false ∧ pct < 0) := by
      rintro ⟨_, h⟩
      linarith
    rw [if_neg hc1, if_neg hc2]
  · by_cases hd : pct < -2 ∨ (pct < 1 ∧ p.isBigMove = false) ∨
      (p.entryRiskLevel = RiskLevel.high ∧ pct < 0)
    · simp [hd]
    · rw [if_neg hd]
      split_ifs <;> simp [hd]
  · intro hpos
    have hc2 : ¬(s.slTightenedByYellowFlag = false ∧ pct < 0) := by
      rintro ⟨_, h⟩
      linarith
    by_cases h1 : pct < -2 ∨ (pct < 1 ∧ p.isBigMove = false) ∨
      (p.entryRiskLevel = RiskLevel.high ∧ pct < 0)
    · rw [if_pos h1]
    · rw [if_neg h1, if_neg hc2]

theorem technical_exit_gating_witness :
    check_technical_exit_conditions curHotW9 prevNeutral pTech.cfg = some TechReason.williamsReversal ∧
    applyTechExit pTech sTech curHotW9 prevNeutral 2 5 102 =
      ({ sTech with technicalExitAvailable := true }, none) := by
  have hfire : check_technical_exit_conditions curHotW9 prevNeutral pTech.cfg =
      some TechReason.williamsReversal := by
    norm_num [check_technical_exit_conditions, pTech, cfgTech, cfgOff, curHotW9, prevNeutral]
  exact ⟨hfire,
    (technical_exit_gating pTech sTech curHotW9 prevNeutral 2 5 102 TechReason.williamsReversal
      hfire rfl).1 rfl (by norm_num)⟩

/-- C6: Scenario A — with dynamic SL enabled at default thresholds, an
entry bar with `K = 90` and fast `%R = -10` (11:00, so no time window
applies) is classified HIGH_RISK, the dynamic SL percent is 3.5, and the
simulated trade's initial stop for entry price 100 is 96.50. -/
theorem dynamic_sl_scenario_a :
    assess_entry_risk_level barScenA = RiskLevel.high ∧
    get_dynamic_sl_percent barScenA 100 cfgDyn
      (get_premium_tier 100 cfgDyn.premiumTiers cfgDyn.premiumTierHigh) = 3.5 ∧
    (execute_advanced_hybrid_premium_trade barScenA [] 100 cfgDyn 660 TradeType.call none).initialSl = 96.5 := by
  refine ⟨?_, ?_, ?_⟩ <;>
    norm_num [assess_entry_risk_level, get_dynamic_sl_percent, apply_time_based_sl_adjustment,
      get_premium_tier, price_below_threshold, execute_advanced_hybrid_premium_trade, init_trade,
      runBars, mk_trade_record, detect_big_move, barScenA, cfgDyn, cfgOff, Bar.hour, Bar.minute]

/-- C7: while BigMove trailing is active, the trailing stage is chosen from
the bar's (highest-high based) profit percent — Stage1 below the Stage1
threshold (default 25), Stage2 below the Stage2 threshold (default 50),
Stage3 otherwise — so on a bar whose profit percent lies in [25, 50) the
stop recomputation uses Stage2's ATR multiplier. -/
theorem bigmove_stage2_selection (p : TradeParams) (s : TradeState) (bar : Bar) (cur : IndVals)
    (s1 s2 s3 : TrailingStage) (q1 q3 profit cpp me : ℚ)
    (hcfg : p.cfg.signalDiff.bigmoveTrailing = ⟨some s1, some s2, some s3⟩)
    (ht1 : s1.profitThreshold = some 25) (ht2 : s2.profitThreshold = some 50)
    (hq1 : q1 < 25) (hq3 : 50 ≤ q3) (hpa : 25 ≤ profit) (hpb : profit < 50)
    (hta : s.trailActive = true) :
    get_trailing_stage_config q1 p.cfg = s1 ∧
    get_trailing_stage_config profit p.cfg = s2 ∧
    get_trailing_stage_config q3 p.cfg = s3 ∧
    (manageBigMove p s bar cur profit cpp me).1.currentSl =
      max s.currentSl (max (max (s.highestHigh - bar.atr.getD 0 *
          (s2.atrMultiplier * get_time_based_adjustment me p.cfg))
        (p.entryPrice * (1 - s2.minSlPct / 100)))
        (get_profit_protection_sl p.entryPrice s.highestHigh p.cfg)) := by
  have hsel2 : get_trailing_stage_config profit p.cfg = s2 := by
    simp [get_trailing_stage_config, hcfg, ht1, ht2, not_lt.mpr hpa, hpb]
  refine ⟨?_, hsel2, ?_, ?_⟩
  · simp [get_trailing_stage_config, hcfg, ht1, hq1]
  · have hn25 : ¬q3 < 25 := not_lt.mpr (le_trans (by norm_num : (25 : ℚ) ≤ 50) hq3)
    have hn50 : ¬q3 < 50 := not_lt.mpr hq3
    simp [get_trailing_stage_config, hcfg, ht1, ht2, hn25, hn50]
  · have key : (manageBigMove p s bar cur profit cpp me).1 =
        raiseSl s (max (max (s.highestHigh - bar.atr.getD 0 *
            (s2.atrMultiplier * get_time_based_adjustment me p.cfg))
          (p.entryPrice * (1 - s2.minSlPct / 100)))
          (get_profit_protection_sl p.entryPrice s.highestHigh p.cfg)) := by
      simp only [manageBigMove, hta, hsel2]
      norm_num
      split_ifs <;> rfl
    rw [key]
    rfl

theorem bigmove_stage2_selection_witness :
    get_trailing_stage_config 10 pBig.cfg = stageA ∧
    get_trailing_stage_config 30 pBig.cfg = stageB ∧
    get_trailing_stage_config 60 pBig.cfg = stageC ∧
    (manageBigMove pBig sBig barBig curNeutral 30 28 4).1.currentSl =
      max sBig.currentSl (max (max (sBig.highestHigh - barBig.atr.getD 0 *
          (stageB.atrMultiplier * get_time_based_adjustment 4 pBig.cfg))
        (pBig.entryPrice * (1 - stageB.minSlPct / 100)))
        (get_profit_protection_sl pBig.entryPrice sBig.highestHigh pBig.cfg)) :=
  bigmove_stage2_selection pBig sBig barBig curNeutral stageA stageB stageC 10 60 30 28 4
    rfl rfl rfl (by norm_num) (by norm_num) (by norm_num) (by norm_num) rfl

/-- C4: the bar loop is a total function of the finite series (it is, by
construction, a terminating structural recursion), and when it finishes
with no exit rule having fired on any bar, the emitted record closes the
trade at the final bar's close, at the final bar's time, with reason
`End of Data`. -/
theorem end_of_data_fallback (entryBar : Bar) (trade_rest : List Bar) (entry_price : ℚ)
    (cfg : TradeConfig) (entry_time : ℕ) (ty : TradeType) (ov : Option OverrideVal)
    (h : (runBars (init_trade entryBar trade_rest entry_price cfg entry_time ty ov).1
        (init_trade entryBar trade_rest entry_price cfg entry_time ty ov).2 trade_rest).2 = none) :
    (execute_advanced_hybrid_premium_trade entryBar trade_rest entry_price cfg entry_time ty ov).exitReason =
      ExitReason.endOfData ∧
    (execute_advanced_hybrid_premium_trade entryBar trade_rest entry_price cfg entry_time ty ov).exitPrice =
      ((entryBar :: trade_rest).getLast (List.cons_ne_nil _ _)).close ∧
    (execute_advanced_hybrid_premium_trade entryBar trade_rest entry_price cfg entry_time ty ov).exitTime =
      ((entryBar :: trade_rest).getLast (List.cons_ne_nil _ _)).time := by
  simp only [execute_advanced_hybrid_premium_trade]
  rcases hm : runBars (init_trade entryBar trade_rest entry_price cfg entry_time ty ov).1
      (init_trade entryBar trade_rest entry_price cfg entry_time ty ov).2 trade_rest with ⟨sF, e?⟩
  rw [hm] at h
  simp only at h
  subst h
  simp [mk_trade_record]

theorem end_of_data_fallback_witness :
    (runBars (init_trade entryBarFlat [barFlat2] 100 cfgOff 0 TradeType.call none).1
      (init_trade entryBarFlat [barFlat2] 100 cfgOff 0 TradeType.call none).2 [barFlat2]).2 = none ∧
    (execute_advanced_hybrid_premium_trade entryBarFlat [barFlat2] 100 cfgOff 0 TradeType.call none).exitReason =
      ExitReason.endOfData ∧
    (execute_advanced_hybrid_premium_trade entryBarFlat [barFlat2] 100 cfgOff 0 TradeType.call none).exitPrice =
      ((entryBarFlat :: [barFlat2]).getLast (List.cons_ne_nil _ _)).close ∧
    (execute_advanced_hybrid_premium_trade entryBarFlat [barFlat2] 100 cfgOff 0 TradeType.call none).exitTime =
      ((entryBarFlat :: [barFlat2]).getLast (List.cons_ne_nil _ _)).time := by
  have h : (runBars (init_trade entryBarFlat [barFlat2] 100 cfgOff 0 TradeType.call none).1
      (init_trade entryBarFlat [barFlat2] 100 cfgOff 0 TradeType.call none).2 [barFlat2]).2 = none := by
    norm_num [runBars, stepBar, stepPreSl, afterTech, stepBranch, applyYellowFlag, applyTechExit,
      detect_yellow_flag_conditions, check_technical_exit_conditions, manageRegular,
      manageAverageSignal, manageBigMove, raiseSl, init_trade, get_premium_tier,
      price_below_threshold, get_dynamic_sl_percent, apply_time_based_sl_adjustment,
      assess_entry_risk_level, detect_big_move, entryBarFlat, barFlat2, cfgOff]
  exact ⟨h, end_of_data_fallback entryBarFlat [barFlat2] 100 cfgOff 0 TradeType.call none h⟩

theorem bars_from_signal_head_gt (t : ℕ) (e : Bar) (td : List Bar) :
    ∀ prices : List Bar, prices.Pairwise (fun a b => a.time < b.time) →
      bars_from_signal t prices = some (e :: td) → t < e.time := by
  intro prices
  induction prices with
  | nil => intro _ h; simp [bars_from_signal] at h
  | cons b rest ih =>
    intro hp h
    rw [bars_from_signal] at h
    by_cases hb : b.time = t
    · rw [if_pos hb] at h
      injection h with h'
      subst h'
      have := (List.pairwise_cons.mp hp).1 e (by simp)
      exact hb ▸ this
    · rw [if_neg hb] at h
      exact ih (List.Pairwise.of_cons hp) h

theorem exec_record_entryTime (entryBar : Bar) (trade_rest : List Bar) (entry_price : ℚ)
    (cfg : TradeConfig) (entry_time : ℕ) (ty : TradeType) (ov : Option OverrideVal) :
    (execute_advanced_hybrid_premium_trade entryBar trade_rest entry_price cfg entry_time ty ov).entryTime =
      entry_time := by
  simp only [execute_advanced_hybrid_premium_trade]
  rcases runBars (init_trade entryBar trade_rest entry_price cfg entry_time ty ov).1
      (init_trade entryBar trade_rest entry_price cfg entry_time ty ov).2 trade_rest with ⟨sF, e?⟩
  cases e? <;> simp [mk_trade_record]

theorem exec_go_spec (prices : List Bar) (lastET : ℕ) (cfg : TradeConfig) (ty : TradeType)
    (hs : prices.Pairwise (fun a b => a.time < b.time)) :
    ∀ (sigs : List EntrySignal) (exitT? : Option ℕ),
      (execute_option_trades_go prices lastET cfg ty exitT? sigs).Chain'
        (fun a b => a.exitTime < b.entryTime) ∧
      (∀ r, (execute_option_trades_go prices lastET cfg ty exitT? sigs).head? = some r →
        ∀ t0, exitT? = some t0 → t0 < r.entryTime) ∧
      (execute_option_trades_go prices lastET cfg ty exitT? sigs).length =
        admitted_signal_count prices lastET cfg ty exitT? sigs := by
  intro sigs
  induction sigs with
  | nil => intro exitT?; simp [execute_option_trades_go, admitted_signal_count]
  | cons sig rest ih =>
    intro exitT?
    by_cases h1 : lastET < sig.time
    · simpa [execute_option_trades_go, admitted_signal_count, h1] using ih exitT?
    · by_cases h2 : active_trade exitT? sig.time = true
      · simpa [execute_option_trades_go, admitted_signal_count, h1, h2] using ih exitT?
      · rcases hbf : bars_from_signal sig.time prices with _ | ⟨_ | ⟨entryBar, td⟩⟩
        · simpa [execute_option_trades_go, admitted_signal_count, h1, h2, hbf] using ih exitT?
        · simpa [execute_option_trades_go, admitted_signal_count, h1, h2, hbf] using ih exitT?
        · have hgo : execute_option_trades_go prices lastET cfg ty exitT? (sig :: rest) =
              execute_advanced_hybrid_premium_trade entryBar td entryBar.open_ cfg entryBar.time ty sig.bigMove ::
              execute_option_trades_go prices lastET cfg ty
                (some (execute_advanced_hybrid_premium_trade entryBar td entryBar.open_ cfg
                  entryBar.time ty sig.bigMove).exitTime) rest := by
            simp [execute_option_trades_go, h1, h2, hbf]
          have hcount : admitted_signal_count prices lastET cfg ty exitT? (sig :: rest) =
              1 + admitted_signal_count prices lastET cfg ty
                (some (execute_advanced_hybrid_premium_trade entryBar td entryBar.open_ cfg
                  entryBar.time ty sig.bigMove).exitTime) rest := by
            simp [admitted_signal_count, h1, h2, hbf]
          have hrec := ih (some (execute_advanced_hybrid_premium_trade entryBar td entryBar.open_ cfg
            entryBar.time ty sig.bigMove).exitTime)
          have hentry : (execute_advanced_hybrid_premium_trade entryBar td entryBar.open_ cfg
              entryBar.time ty sig.bigMove).entryTime = entryBar.time :=
            exec_record_entryTime entryBar td entryBar.open_ cfg entryBar.time ty sig.bigMove
          have hsig_lt : sig.time < entryBar.time :=
            bars_from_signal_head_gt sig.time entryBar td prices hs hbf
          rw [hgo, hcount]
          refine ⟨?_, ?_, ?_⟩
          · refine List.chain'_cons'.mpr ⟨?_, hrec.1⟩
            intro y hy
            rw [Option.mem_def] at hy
            exact hrec.2.1 y hy _ rfl
          · intro r' hr' t0 ht0
            simp only [List.head?_cons, Option.some.injEq] at hr'
            subst hr'
            have hnle : ¬sig.time ≤ t0 := by
              intro hle
              apply h2
              rw [ht0]
              simp [active_trade, hle]
            rw [hentry]
            omega
          · simp [hrec.2.2]
            omega

/-- C3: each admitted entry signal yields exactly one trade record (the
result list is as long as the count of admitted signals), and positions
never overlap: in the emitted list every trade's entry time is strictly
after the previous trade's exit time, given a strictly time-ordered price
series. -/
theorem one_record_per_signal_no_overlap (prices : List Bar) (lastET : ℕ) (cfg : TradeConfig)
    (ty : TradeType) (sigs : List EntrySignal)
    (hs : prices.Pairwise (fun a b => a.time < b.time)) :
    (execute_option_trades prices lastET cfg ty sigs).length =
      admitted_signal_count prices lastET cfg ty none sigs ∧
    (execute_option_trades prices lastET cfg ty sigs).Chain'
      (fun a b => a.exitTime < b.entryTime) := by
  have h := exec_go_spec prices lastET cfg ty hs sigs none
  exact ⟨h.2.2, h.1⟩

theorem one_record_per_signal_no_overlap_witness :
    pricesW.Pairwise (fun a b => a.time < b.time) ∧
    ((execute_option_trades pricesW 1000 cfgOff TradeType.call sigsW).length =
      admitted_signal_count pricesW 1000 cfgOff TradeType.call none sigsW ∧
     (execute_option_trades pricesW 1000 cfgOff TradeType.call sigsW).Chain'
       (fun a b => a.exitTime < b.entryTime)) := by
  have hp : pricesW.Pairwise (fun a b => a.time < b.time) := by
    norm_num [pricesW, barW1, barW2, barW3, List.pairwise_cons]
  exact ⟨hp, one_record_per_signal_no_overlap pricesW 1000 cfgOff TradeType.call sigsW hp⟩
